import Mathlib

/-!
# Verification of `JointInv/psstation.py`

Shallow embedding of the station-registry module `JointInv/psstation.py`.
Python floats are modelled by `ℚ`, Python exceptions by `Except PyErr`,
Python dicts by association lists with in-place update semantics.
External collaborators (`psutils.filelist`, `glob`, obspy parsers) enter the
embedding as explicit inputs: the list of discovered files, the directory
listing, and inventory records already parsed into their observable fields.
-/

set_option linter.unusedVariables false

/-- Kinds of Python exceptions raised by the embedded code.
`nameError` also stands for `UnboundLocalError` (a subclass of `NameError`). -/
inductive PyErr where
  | valueError
  | keyError
  | nameError
  | typeError
  deriving DecidableEq

/-- Python string slicing `s[a:b]` with non-negative bounds (never raises). -/
def strSlice (s : String) (a b : Nat) : String :=
  ((s.toList.drop a).take (b - a)).asString

/-- Python `int(s)`: parse an integer literal, `ValueError` on failure. -/
def pyInt (s : String) : Except PyErr Int :=
  match s.toInt? with
  | some n => Except.ok n
  | none => Except.error PyErr.valueError

/-- Python tuple unpacking `a, b = xs` of a sequence: `ValueError`
unless the sequence has exactly two items. -/
def unpack2 : List ℚ → Except PyErr (ℚ × ℚ)
  | [a, b] => Except.ok (a, b)
  | _ => Except.error PyErr.valueError

/-- Python tuple unpacking `a, b, c = xs`: `ValueError`
unless the sequence has exactly three items. -/
def unpack3 {α : Type} : List α → Except PyErr (α × α × α)
  | [a, b, c] => Except.ok (a, b, c)
  | _ => Except.error PyErr.valueError

/-- Python tuple unpacking `a, b, c, d = xs`: `ValueError`
unless the sequence has exactly four items. -/
def unpack4 : List String → Except PyErr (String × String × String × String)
  | [a, b, c, d] => Except.ok (a, b, c, d)
  | _ => Except.error PyErr.valueError

/-- `os.path.join` of a directory and a relative file name. -/
def osPathJoin (d n : String) : String := d ++ "/" ++ n

/-- `os.path.basename`: the component after the last `/`. -/
def osPathBasename (p : String) : String := (p.splitOn "/").getLastD ""

/-- A Python value that is either a string or a list, used where the source
code can hold a value of either type in one variable
(`get_RESP_filelists` rebinds its path argument to a list). -/
inductive PyVal where
  | str (s : String)
  | list (items : List String)
  deriving DecidableEq

/-- `os.path.join(x, n)` where `x` may be any Python value: joining a list
raises `TypeError` (`expected str, bytes or os.PathLike object, not list`). -/
def osPathJoinVal : PyVal → String → Except PyErr String
  | PyVal.str d, n => Except.ok (osPathJoin d n)
  | PyVal.list _, _ => Except.error PyErr.typeError

/-- Python `list + str`: always a `TypeError`. -/
def pyAddListStr (l : List String) (s : String) : Except PyErr (List String) :=
  Except.error PyErr.typeError

/-- Python `dict[k] = v` / `dict.update({k: v})` on a dict represented as an
association list in insertion order: replace the value of an existing key in
place, otherwise append the new binding. -/
def dictUpdate (d : List (String × String)) (k v : String) : List (String × String) :=
  if d.any (fun p => p.1 == k) then
    d.map (fun p => if p.1 == k then (k, v) else p)
  else
    d ++ [(k, v)]

/-- Python tuple comparison `(a₁, a₂) < (b₁, b₂)` on integer pairs. -/
def tupLt (a b : Int × Int) : Bool :=
  a.1 < b.1 || (a.1 == b.1 && a.2 < b.2)

/-- Truthiness-guarded test `x and p(x)` for an optional Python value
(`None` is falsy, a `date` object is always truthy). -/
def optTruthy {α : Type} (o : Option α) (p : α → Bool) : Bool :=
  match o with
  | none => false
  | some a => p a

/-! ## The `Station` class (psstation.py lines 23–133) -/

/-- `Station.__init__`: name, network, channel, file-name template, base dir,
date subdirs and coordinate.  The coordinate is a Python tuple of varying
length, modelled as a list: the default is `(None, None)`, the mean branch of
`get_stations` assigns a 2-tuple of floats, the database branch a 3-tuple. -/
structure Station where
  name : String
  network : String
  channel : String
  file : String
  basedir : String
  subdirs : List String
  coord : List (Option ℚ)
  deriving DecidableEq

/-- Functional update of `self.coord` (the source mutates in place). -/
def Station.setCoord (s : Station) (c : List (Option ℚ)) : Station :=
  ⟨s.name, s.network, s.channel, s.file, s.basedir, s.subdirs, c⟩

/-- Functional form of `station.subdirs.append(subdir)`. -/
def Station.appendSubdir (s : Station) (sd : String) : Station :=
  ⟨s.name, s.network, s.channel, s.file, s.basedir, s.subdirs ++ [sd], s.coord⟩

/-- `Station.__eq__`: `all(getattr(self, att) == getattr(other, att)
for att in BOOLATTRS)` with `BOOLATTRS = ['name', 'network', 'channel']`. -/
def Station.beq (self other : Station) : Bool :=
  self.name == other.name && self.network == other.network &&
    self.channel == other.channel

/-- `Station.__ne__`: `not self.__eq__(other)`. -/
def Station.bne (self other : Station) : Bool :=
  !(Station.beq self other)

/-- Python list comparison `xs < ys` for lists of strings: scan for the first
pair of unequal items and compare them; a strict prefix is smaller. -/
def pyStrListLt : List String → List String → Bool
  | _, [] => false
  | [], _ :: _ => true
  | a :: as, b :: bs => if a == b then pyStrListLt as bs else decide (a < b)

/-- The attribute list `[getattr(s, att) for att in BOOLATTRS]`. -/
def Station.boolTriple (s : Station) : List String :=
  [s.name, s.network, s.channel]

/-- `Station.__lt__`: Python list comparison of the `BOOLATTRS` lists. -/
def Station.lt (self other : Station) : Bool :=
  pyStrListLt (Station.boolTriple self) (Station.boolTriple other)

/-- `Station.__le__`: `self.__lt__(other) or self.__eq__(other)`. -/
def Station.le (self other : Station) : Bool :=
  Station.lt self other || Station.beq self other

/-- `Station.__gt__`: `not self.__le__(other)`. -/
def Station.gt (self other : Station) : Bool :=
  !(Station.le self other)

/-- `Station.__ge__`: `not self.__lt__(other)`. -/
def Station.ge (self other : Station) : Bool :=
  !(Station.lt self other)

/-- `Station.dist`: unpacks `lon1, lat1, _ = self.coord` and
`lon2, lat2, _ = other.coord`, then calls `psutils.dist`.  `psutils` is not
part of this module; the geodesic distance function is passed in as an
arbitrary total function `distFn`, since no claim depends on its values. -/
def Station.dist (distFn : Option ℚ → Option ℚ → Option ℚ → Option ℚ → ℚ)
    (self other : Station) : Except PyErr ℚ := do
  let (lon1, lat1, _) ← unpack3 self.coord
  let (lon2, lat2, _) ← unpack3 other.coord
  pure (distFn lon1 lat1 lon2 lat2)

/-! ## `get_stations`: file-scan phase (lines 210–246) -/

/-- The year/month fields of a `datetime.date` bound
(`startday.year`, `startday.month`). -/
structure Date where
  year : Int
  month : Int
  deriving DecidableEq

/-- One file produced by `psutils.filelist(mseed_dir, ..., subdirs=True)`,
already split by `os.path.split` into its date sub-directory and base name. -/
structure FileEntry where
  subdir : String
  basename : String
  deriving DecidableEq

/-- The data extracted from one accepted file by the scan loop body. -/
structure ParsedFile where
  subdir : String
  network : String
  name : String
  loc : String
  channel : String
  deriving DecidableEq

/-- Lines 217–232 of the scan loop: parse the date from the sub-directory
name, apply the start/end month bounds, split the base name into
`network, name, loc, channel`, and apply the network/channel filters.
`none` models `continue` (file skipped); errors model uncaught exceptions
(`int()` or tuple unpacking failing). -/
def parseAccept (startday endday : Option Date) (networks channels : List String)
    (fe : FileEntry) : Except PyErr (Option ParsedFile) := do
  let year ← pyInt (strSlice fe.subdir 0 4)
  let month ← pyInt (strSlice fe.subdir 4 6)
  let _date ← pyInt (strSlice fe.subdir 6 8)
  if optTruthy startday (fun d => tupLt (year, month) (d.year, d.month)) then
    return none
  if optTruthy endday (fun d => tupLt (d.year, d.month) (year, month)) then
    return none
  let (network, name, loc, channel) ← unpack4 ((fe.basename.splitOn ".").take 4)
  if !networks.isEmpty && !(networks.contains network) then
    return none
  if !channels.isEmpty && !(channels.contains channel) then
    return none
  return some ⟨fe.subdir, network, name, loc, channel⟩

/-- The `(network, name, channel)` key of a station as compared by the scan
loop: `[s.network, s.name, s.channel]`. -/
def stationKey (s : Station) : List String := [s.network, s.name, s.channel]

/-- The `(network, name, channel)` key of a parsed file. -/
def pfKey (pf : ParsedFile) : List String := [pf.network, pf.name, pf.channel]

/-- Append `sd` to the subdir list of the first station matching `key`
(the mutation `station.subdirs.append(subdir)` after
`next(s for s in stations if match(s))`). -/
def appendSubdirFirst (key : List String) (sd : String) : List Station → List Station
  | [] => []
  | s :: rest =>
    if stationKey s == key then Station.appendSubdir s sd :: rest
    else s :: appendSubdirFirst key sd rest

/-- Lines 234–245: look for the station in the list; append a new `Station`
with the current subdir on `StopIteration`, otherwise append the subdir
to the existing station's subdir list (unconditionally). -/
def insertFile (mseed_dir : String) (stations : List Station) (pf : ParsedFile) :
    List Station :=
  if stations.any (fun s => stationKey s == pfKey pf) then
    appendSubdirFirst (pfKey pf) pf.subdir stations
  else
    stations ++ [⟨pf.name, pf.network, pf.channel,
      String.intercalate "." [pf.network, pf.name, pf.loc, pf.channel, "*", "mseed"],
      mseed_dir, [pf.subdir], [none, none]⟩]

/-- One iteration of the scan loop (lines 215–245). -/
def scanStep (mseed_dir : String) (startday endday : Option Date)
    (networks channels : List String) (stations : List Station) (fe : FileEntry) :
    Except PyErr (List Station) :=
  match parseAccept startday endday networks channels fe with
  | Except.error e => Except.error e
  | Except.ok none => Except.ok stations
  | Except.ok (some pf) => Except.ok (insertFile mseed_dir stations pf)

/-- The whole scan phase: fold the loop body over the discovered files,
starting from the empty station list. -/
def scanStations (mseed_dir : String) (startday endday : Option Date)
    (networks channels : List String) (files : List FileEntry) :
    Except PyErr (List Station) :=
  files.foldlM (scanStep mseed_dir startday endday networks channels) []

/-- Specification helper: the date sub-directory one file contributes to the
station with key `key` (empty when the file is skipped or belongs to another
station). -/
def subdirContribution (startday endday : Option Date)
    (networks channels : List String) (fe : FileEntry) (key : List String) :
    List String :=
  match parseAccept startday endday networks channels fe with
  | Except.ok (some pf) => if pfKey pf == key then [pf.subdir] else []
  | _ => []

/-- Specification helper: the date sub-directories contributed to key `key`
by the accepted files of `files`, in scan order. -/
def acceptedSubdirs (startday endday : Option Date) (networks channels : List String)
    (files : List FileEntry) (key : List String) : List String :=
  files.flatMap (fun fe => subdirContribution startday endday networks channels fe key)

/-- The station keys of a list are pairwise distinct. -/
def keysNodup (stations : List Station) : Prop :=
  (stations.map stationKey).Nodup

/-! ## `get_stations`: coordinate-resolution phase (lines 251–310) -/

/-- One entry of the station database built by `get_station_database`:
the dict `{"stla": ..., "stlo": ..., "stel": ...}`. -/
structure DBEntry where
  stla : ℚ
  stlo : ℚ
  stel : ℚ
  deriving DecidableEq

/-- The station database: a dict keyed by `"NET.STA"`. -/
abbrev StationDB := List (String × DBEntry)

/-- Python dict lookup `stationinfo[stationid]` (first binding wins;
a real dict has unique keys). -/
def dbFind : StationDB → String → Option DBEntry
  | [], _ => none
  | (k, e) :: rest, key => if k == key then some e else dbFind rest key

/-- Truthiness of the `database` argument (default `False`; an empty dict is
also falsy, so `stationinfo = database` is not executed for it either). -/
def dbTruthy : Option StationDB → Bool
  | none => false
  | some d => !d.isEmpty

/-- One channel record of `inv.getInventory()['channels']` of a dataless
inventory: its `channel_id` and coordinates. -/
structure ChannelRec where
  channel_id : String
  longitude : ℚ
  latitude : ℚ
  deriving DecidableEq

/-- A dataless inventory, reduced to its channel records. -/
abbrev DatalessInv := List ChannelRec

/-- A station element of a StationXML network. -/
structure XmlSta where
  code : String
  longitude : ℚ
  latitude : ℚ
  deriving DecidableEq

/-- A network element of a StationXML inventory. -/
structure XmlNet where
  code : String
  stations : List XmlSta
  deriving DecidableEq

/-- A StationXML inventory, reduced to its networks. -/
abbrev XmlInv := List XmlNet

/-- Insert into a Python set modelled as a duplicate-free list in first-insertion
order (the set's iteration order is irrelevant downstream: every use is
order-independent). -/
def insertObs (l : List (ℚ × ℚ)) (x : ℚ × ℚ) : List (ℚ × ℚ) :=
  if x ∈ l then l else l ++ [x]

/-- Lines 261–263: coordinates of the station in the dataless inventories,
keeping channels whose `channel_id.split('.')[:2] == [network, name]`. -/
def datalessObs (dataless : List DatalessInv) (network name : String) : List (ℚ × ℚ) :=
  dataless.flatMap (fun inv => inv.filterMap (fun c =>
    if (c.channel_id.splitOn ".").take 2 == [network, name]
    then some (c.longitude, c.latitude) else none))

/-- Lines 266–268: coordinates of the station in the StationXML inventories,
keeping stations with `net.code == network` and `s.code == name`. -/
def xmlObs (xml : List XmlInv) (network name : String) : List (ℚ × ℚ) :=
  xml.flatMap (fun inv => inv.flatMap (fun net =>
    if net.code == network then
      net.stations.filterMap (fun s =>
        if s.code == name then some (s.longitude, s.latitude) else none)
    else []))

/-- The set union of the per-inventory coordinate observations
(lines 261–268), as a duplicate-free list. -/
def gatherInvObs (dataless : List DatalessInv) (xml : List XmlInv)
    (network name : String) : List (ℚ × ℚ) :=
  (datalessObs dataless network name ++ xmlObs xml network name).foldl insertObs []

/-- Lines 271–276: the `try`/`except KeyError` block.  `coords_set` is
unconditionally reassigned from `stationinfo[stationid]`; `stationinfo` is
only bound (line 256) when `database` is truthy, so with a falsy `database`
the lookup raises `UnboundLocalError` (a `NameError`), which the
`except KeyError` handler does not catch.  The inventory observations
`invObs` are discarded on every path. -/
def dbLookupStep (database : Option StationDB) (stationid : String)
    (invObs : List (ℚ × ℚ)) : Except PyErr (List (List ℚ)) :=
  if dbTruthy database then
    match database with
    | some db =>
      match dbFind db stationid with
      | some e => Except.ok [[e.stlo, e.stla, e.stel]]
      | none => Except.ok []
    | none => Except.error PyErr.nameError
  else
    Except.error PyErr.nameError

/-- `itertools.combinations(xs, 2)`: all unordered pairs of positions `i < j`,
as ordered pairs `(xs[i], xs[j])`. -/
def combinations2 : List ℚ → List (ℚ × ℚ)
  | [] => []
  | a :: rest => rest.map (fun b => (a, b)) ++ combinations2 rest

/-- `np.array(xs).max()`: maximum of a list, `ValueError` on an empty array. -/
def npArrayMax : List ℚ → Except PyErr ℚ
  | [] => Except.error PyErr.valueError
  | x :: xs => Except.ok (xs.foldl max x)

/-- `np.abs(np.diff(list(it.combinations(xs, 2)))).max()`:
`np.diff` maps a pair `(a, b)` to `b - a`. -/
def npMaxAbsDiff (xs : List ℚ) : Except PyErr ℚ :=
  npArrayMax ((combinations2 xs).map (fun p => |p.2 - p.1|))

/-- `np.mean(xs)`: the arithmetic mean. -/
def npMean (xs : List ℚ) : ℚ := xs.sum / (xs.length : ℚ)

/-- The comprehensions `[lon for lon, _ in coords_set]` /
`[lat for _, lat in coords_set]`: unpack every element as a pair
(`ValueError` on a tuple whose length is not two); the two comprehensions
are fused into one pass producing the pairs, whose components are then
projected — the error/value behaviour is identical. -/
def pyListComp2 : List (List ℚ) → Except PyErr (List (ℚ × ℚ))
  | [] => Except.ok []
  | x :: xs => do
    let p ← unpack2 x
    let ps ← pyListComp2 xs
    pure (p :: ps)

/-- Lines 278–309: the per-station resolution of `coords_set`.
`Except.ok none` models `stations.remove(sta)` (the loop then continues with
the next station); `Except.ok (some c)` models `sta.coord = c`.
The comprehensions `[lon for lon, _ in coords_set]` and
`[lat for _, lat in coords_set]` unpack each element as a pair, raising
`ValueError` on a tuple whose length is not two. -/
def resolveCoordsSet (tol : ℚ) (coords_set : List (List ℚ)) :
    Except PyErr (Option (List ℚ)) :=
  if coords_set.isEmpty then
    Except.ok none
  else if coords_set.length == 1 then
    Except.ok (some (coords_set.headD []))
  else do
    let pairs ← pyListComp2 coords_set
    let lons := pairs.map Prod.fst
    let lats := pairs.map Prod.snd
    let maxdiff_lon ← npMaxAbsDiff lons
    let maxdiff_lat ← npMaxAbsDiff lats
    if maxdiff_lon ≤ tol && maxdiff_lat ≤ tol then
      Except.ok (some [npMean lons, npMean lats])
    else
      Except.ok none

/-- The full per-station coordinate pipeline of the resolution loop body
(lines 259–309): gather the inventory observations, let the database step
replace them, then run the branch on the resulting `coords_set`. -/
def stationCoordResolution (tol : ℚ) (database : Option StationDB)
    (dataless : List DatalessInv) (xml : List XmlInv) (network name : String) :
    Except PyErr (Option (List ℚ)) := do
  let invObs := gatherInvObs dataless xml network name
  let coords_set ← dbLookupStep database (network ++ "." ++ name) invObs
  resolveCoordsSet tol coords_set

/-- The loop body applied to one station: either the station is dropped
(`none`) or returned with its resolved coordinate assigned. -/
def resolveStation (tol : ℚ) (database : Option StationDB)
    (dataless : List DatalessInv) (xml : List XmlInv) (sta : Station) :
    Except PyErr (Option Station) := do
  match ← stationCoordResolution tol database dataless xml sta.network sta.name with
  | none => pure none
  | some c => pure (some (Station.setCoord sta (c.map some)))

/-- Lines 259–309: the resolution loop over `copy(stations)`, removing
dropped stations and keeping the rest in order. -/
def resolvePhase (tol : ℚ) (database : Option StationDB)
    (dataless : List DatalessInv) (xml : List XmlInv) (stations : List Station) :
    Except PyErr (List Station) :=
  stations.foldlM (fun acc sta => do
    match ← resolveStation tol database dataless xml sta with
    | none => pure acc
    | some s => pure (acc ++ [s])) []

/-- `get_stations` (lines 191–310): scan the miniseed files into stations,
then resolve each station's coordinates.  `files` is the result of the
external `psutils.filelist`; `database=False` is `none`. -/
def get_stations (mseed_dir : String) (files : List FileEntry)
    (xml_inventories : List XmlInv) (dataless_inventories : List DatalessInv)
    (database : Option StationDB) (networks channels : List String)
    (startday endday : Option Date) (coord_tolerance : ℚ) :
    Except PyErr (List Station) := do
  let stations ← scanStations mseed_dir startday endday networks channels files
  resolvePhase coord_tolerance database dataless_inventories xml_inventories stations

/-! ## `get_paz` (lines 470–494) -/

/-- One inventory tried by `get_paz`: either an object with a `getPAZ`
capability (an obspy dataless parser, external: its lookup is an arbitrary
function, `none` modelling a raised `SEEDParserException`), or a pickled
dict with explicit `channelid`, optional `startdate`/`enddate`
(`None` is falsy) and a `paz` payload.  Timestamps are modelled by `ℚ`. -/
inductive PazInv (PAZ : Type) where
  | obj (getPAZ : String → ℚ → Option PAZ)
  | dict (channelid : String) (startdate enddate : Option ℚ) (paz : PAZ)

/-- `not x or p(x)` for an optional bound (`assert not inv['startdate'] or
t >= inv['startdate']`). -/
def optNoneOr {α : Type} (p : α → Bool) : Option α → Bool
  | none => true
  | some a => p a

/-- The body of the `try` block for one inventory: `some paz` if the
inventory yields a PAZ, `none` if it raises
`SEEDParserException`/`AssertionError` (then the loop continues). -/
def tryInventory {PAZ : Type} (channelid : String) (t : ℚ) : PazInv PAZ → Option PAZ
  | PazInv.obj f => f channelid t
  | PazInv.dict cid sd ed paz =>
    if cid == channelid
        && optNoneOr (fun d => decide (d ≤ t)) sd
        && optNoneOr (fun d => decide (t ≤ d)) ed
    then some paz else none

/-- `get_paz`: try the inventories in order, return the first PAZ found,
raise `NoPAZFound('No PAZ found for channel ' + channelid)` when the loop
exhausts the list.  The error side carries the `NoPAZFound` message. -/
def get_paz {PAZ : Type} (channelid : String) (t : ℚ) :
    List (PazInv PAZ) → Except String PAZ
  | [] => Except.error ("No PAZ found for channel " ++ channelid)
  | inv :: rest =>
    match tryInventory channelid t inv with
    | some paz => Except.ok paz
    | none => get_paz channelid t rest

/-! ## `get_SACPZ_filelists` (lines 394–422) -/

/-- `get_SACPZ_filelists`: glob `SAC_PZ*` in the directory (modelled by the
directory `listing` filtered by the prefix, each joined to the directory
path), split each basename on `_`, take tokens `[2:6]` as
`net, sta, chn, loc`, and build the dict keyed
`net.sta.loc.chn → file path`. -/
def get_SACPZ_filelists (resp_filepath : String) (listing : List String) :
    Except PyErr (List (String × String)) := do
  let flist := (listing.filter (fun n => n.startsWith "SAC_PZ")).map
    (fun n => osPathJoin resp_filepath n)
  flist.foldlM (fun d f => do
    let (net, sta, chn, loc) ← unpack4 ((((osPathBasename f).splitOn "_").drop 2).take 4)
    let responseid := String.intercalate "." [net, sta, loc, chn]
    pure (dictUpdate d responseid f)) []

/-- Specification-side restatement of the amended scanner behaviour: a pure
fold over the `SAC_PZ*`-matching names, keying each file by the
underscore-delimited tokens 2–5 of its basename assembled as
`network.station.location.channel`. -/
def sacpzSpecDict (resp_filepath : String) (listing : List String) :
    List (String × String) :=
  (listing.filter (fun n => n.startsWith "SAC_PZ")).foldl
    (fun d n =>
      let f := osPathJoin resp_filepath n
      let tk := (osPathBasename f).splitOn "_"
      dictUpdate d
        (String.intercalate "." [tk.getD 2 "", tk.getD 3 "", tk.getD 5 "", tk.getD 4 ""]) f)
    []

/-! ## `get_RESP_filelists` (lines 367–392) -/

/-- `get_RESP_filelists`: the first statement `resp_filepath = []` rebinds
the directory parameter to an empty list, so
`os.path.join(resp_filepath, "RESP*")` receives a list and raises
`TypeError` before any file is listed.  (Were it reached, the loop body
`resp_filepath.append(resp_filepath + str(f))` would also raise `TypeError`
on `list + str`.) -/
def get_RESP_filelists (resp_filepath : String) (listing : List String) :
    Except PyErr (List String) := do
  let shadowed : PyVal := PyVal.list []
  let pat ← osPathJoinVal shadowed "RESP*"
  let flist := (listing.filter (fun n => n.startsWith "RESP")).map
    (fun n => osPathJoin pat n)
  let out ← flist.foldlM (fun acc f => do
    let appended ← pyAddListStr acc f
    pure appended) ([] : List String)
  pure out

/-! ## Helper lemmas -/

@[simp] theorem exceptBind_ok {ε α β : Type} (a : α) (f : α → Except ε β) :
    (Except.ok a >>= f : Except ε β) = f a := rfl

@[simp] theorem exceptBind_err {ε α β : Type} (e : ε) (f : α → Except ε β) :
    (Except.error e >>= f : Except ε β) = Except.error e := rfl

@[simp] theorem exceptMap_ok {ε α β : Type} (a : α) (f : α → β) :
    (f <$> (Except.ok a : Except ε α)) = Except.ok (f a) := rfl

@[simp] theorem exceptMap_err {ε α β : Type} (e : ε) (f : α → β) :
    (f <$> (Except.error e : Except ε α)) = (Except.error e : Except ε β) := rfl

@[simp] theorem exceptPure {ε α : Type} (a : α) :
    (pure a : Except ε α) = Except.ok a := rfl

theorem unpack3_ok_of_length {α : Type} (l : List α) (h : l.length = 3) :
    ∃ t, unpack3 l = Except.ok t := by
  rcases l with _ | ⟨a, _ | ⟨b, _ | ⟨c, _ | ⟨d, tl⟩⟩⟩⟩ <;> simp_all [unpack3]

theorem unpack3_err_of_length {α : Type} (l : List α) (h : l.length ≠ 3) :
    unpack3 l = Except.error PyErr.valueError := by
  rcases l with _ | ⟨a, _ | ⟨b, _ | ⟨c, _ | ⟨d, tl⟩⟩⟩⟩ <;> simp_all [unpack3]

theorem length_of_unpack3_ok {α : Type} (l : List α) (t : α × α × α)
    (h : unpack3 l = Except.ok t) : l.length = 3 := by
  rcases l with _ | ⟨a, _ | ⟨b, _ | ⟨c, _ | ⟨d, tl⟩⟩⟩⟩ <;> simp_all [unpack3]

/-! ## C6: Station equality -/

/-- C6: For every pair of `Station` objects, `__eq__` holds iff name,
network and channel all match exactly (no other field occurs in the
characterisation), and `__ne__` is its negation. -/
theorem C6_station_equality : ∀ a b : Station,
    (Station.beq a b = true ↔
      a.name = b.name ∧ a.network = b.network ∧ a.channel = b.channel) ∧
    (Station.bne a b = true ↔
      ¬(a.name = b.name ∧ a.network = b.network ∧ a.channel = b.channel)) := by
  intro a b
  constructor
  · simp [Station.beq, and_assoc]
  · simp only [Station.bne, Station.beq, Bool.not_eq_true']
    rw [← Bool.not_eq_true]
    simp [and_assoc]

/-- Witness for C6 at concrete stations: equal triple with different
coordinates/subdirs/file/basedir, and unequal triple. -/
theorem C6_witness :
    Station.beq ⟨"CACB", "BL", "BHZ", "f", "b", [], [none, none]⟩
      ⟨"CACB", "BL", "BHZ", "g", "c", ["20160806"], [some 1, some 2]⟩ = true ∧
    Station.bne ⟨"CACB", "BL", "BHZ", "f", "b", [], []⟩
      ⟨"NUPB", "BL", "BHZ", "f", "b", [], []⟩ = true :=
  ⟨(C6_station_equality _ _).1.mpr ⟨rfl, rfl, rfl⟩,
   (C6_station_equality _ _).2.mpr (by simp)⟩

/-! ## C9: get_RESP_filelists always raises TypeError -/

/-- C9: `get_RESP_filelists` overwrites its directory argument with an empty
list before using it, so `os.path.join` receives a list and every call
raises `TypeError`; the claimed flat list of `RESP*` paths is never
returned. -/
theorem C9_resp_filelists_type_error :
    ∀ (resp_filepath : String) (listing : List String),
    get_RESP_filelists resp_filepath listing = Except.error PyErr.typeError := by
  intro d l
  rfl

/-! ## C10: Station.dist unpacking -/

/-- C10: `Station.dist` unpacks exactly three elements from each coordinate:
it raises `ValueError` on the default `(None, None)` coordinate and on any
two-element mean coordinate, and it returns a value exactly when both
stations' coordinates are three-element triples — whatever the underlying
geodesic distance function is. -/
theorem C10_dist_unpack :
    ∀ (distFn : Option ℚ → Option ℚ → Option ℚ → Option ℚ → ℚ) (s o : Station),
    (s.coord = [none, none] →
      Station.dist distFn s o = Except.error PyErr.valueError) ∧
    (∀ lo la : ℚ, s.coord = [some lo, some la] →
      Station.dist distFn s o = Except.error PyErr.valueError) ∧
    ((∃ q, Station.dist distFn s o = Except.ok q) ↔
      s.coord.length = 3 ∧ o.coord.length = 3) := by
  intro distFn s o
  refine ⟨?_, ?_, ?_⟩
  · intro h
    simp [Station.dist, h, unpack3]
  · intro lo la h
    simp [Station.dist, h, unpack3]
  · constructor
    · rintro ⟨q, hq⟩
      rcases h1 : unpack3 s.coord with e1 | t1
      · simp [Station.dist, h1] at hq
      rcases h2 : unpack3 o.coord with e2 | t2
      · obtain ⟨a1, b1, c1⟩ := t1
        simp [Station.dist, h1, h2] at hq
      · exact ⟨length_of_unpack3_ok _ _ h1, length_of_unpack3_ok _ _ h2⟩
    · rintro ⟨h1, h2⟩
      obtain ⟨⟨a1, b1, c1⟩, e1⟩ := unpack3_ok_of_length s.coord h1
      obtain ⟨⟨a2, b2, c2⟩, e2⟩ := unpack3_ok_of_length o.coord h2
      exact ⟨distFn a1 b1 a2 b2, by simp [Station.dist, e1, e2]⟩

/-- Witness for C10 at concrete stations: a default coordinate fails, a
two-element mean coordinate fails, a database triple succeeds. -/
theorem C10_witness :
    Station.dist (fun _ _ _ _ => 0)
      ⟨"A", "N", "C", "f", "b", [], [none, none]⟩
      ⟨"B", "N", "C", "f", "b", [], [some 1, some 2, some 3]⟩ =
      Except.error PyErr.valueError ∧
    Station.dist (fun _ _ _ _ => 0)
      ⟨"A", "N", "C", "f", "b", [], [some 5, some 6]⟩
      ⟨"B", "N", "C", "f", "b", [], [some 1, some 2, some 3]⟩ =
      Except.error PyErr.valueError ∧
    ∃ q, Station.dist (fun _ _ _ _ => 0)
      ⟨"A", "N", "C", "f", "b", [], [some 5, some 6, some 7]⟩
      ⟨"B", "N", "C", "f", "b", [], [some 1, some 2, some 3]⟩ = Except.ok q :=
  ⟨(C10_dist_unpack _ _ _).1 rfl,
   (C10_dist_unpack _ _ _).2.1 5 6 rfl,
   (C10_dist_unpack _ _ _).2.2.mpr ⟨rfl, rfl⟩⟩

/-! ## C5: get_paz -/

theorem get_paz_error_iff {PAZ : Type} (cid : String) (t : ℚ)
    (invs : List (PazInv PAZ)) :
    get_paz cid t invs = Except.error ("No PAZ found for channel " ++ cid) ↔
      ∀ inv ∈ invs, tryInventory cid t inv = none := by
  induction invs with
  | nil => simp [get_paz]
  | cons inv rest ih =>
    cases h : tryInventory cid t inv with
    | some p => simp [get_paz, h]
    | none => simp [get_paz, h, ih]

theorem get_paz_ok_iff {PAZ : Type} (cid : String) (t : ℚ)
    (invs : List (PazInv PAZ)) (p : PAZ) :
    get_paz cid t invs = Except.ok p ↔
      ∃ pre inv post, invs = pre ++ inv :: post ∧
        (∀ j ∈ pre, tryInventory cid t j = none) ∧
        tryInventory cid t inv = some p := by
  induction invs with
  | nil =>
    simp only [get_paz]
    constructor
    · intro h
      cases h
    · rintro ⟨pre, inv, post, heq, -, -⟩
      exact absurd heq.symm (List.append_ne_nil_of_right_ne_nil pre (by simp))
  | cons a rest ih =>
    cases h : tryInventory cid t a with
    | some q =>
      simp only [get_paz, h]
      constructor
      · intro h2
        cases h2
        exact ⟨[], a, rest, rfl, by simp, h⟩
      · rintro ⟨pre, inv, post, heq, hpre, hinv⟩
        cases pre with
        | nil =>
          simp only [List.nil_append, List.cons.injEq] at heq
          rw [heq.1] at h
          rw [h] at hinv
          cases hinv
          rfl
        | cons b pre' =>
          simp only [List.cons_append, List.cons.injEq] at heq
          have hb : tryInventory cid t b = none := hpre b (by simp)
          rw [← heq.1] at hb
          rw [h] at hb
          cases hb
    | none =>
      simp only [get_paz, h]
      rw [ih]
      constructor
      · rintro ⟨pre, inv, post, heq, hpre, hinv⟩
        refine ⟨a :: pre, inv, post, by rw [heq, List.cons_append], ?_, hinv⟩
        intro j hj
        rcases List.mem_cons.mp hj with rfl | hj'
        · exact h
        · exact hpre j hj'
      · rintro ⟨pre, inv, post, heq, hpre, hinv⟩
        cases pre with
        | nil =>
          simp only [List.nil_append, List.cons.injEq] at heq
          rw [heq.1] at h
          rw [h] at hinv
          cases hinv
        | cons b pre' =>
          simp only [List.cons_append, List.cons.injEq] at heq
          refine ⟨pre', inv, post, heq.2, ?_, hinv⟩
          intro j hj
          exact hpre j (by simp [hj])

/-- C5: `get_paz` tries the inventories in order and returns the PAZ of the
first inventory that matches (every inventory failing before it falls
through to the next); a dict inventory matches exactly when its channel id
equals the requested one and the timestamp lies in its optional validity
window; and when no inventory matches, the lookup fails with the
`NoPAZFound` message naming the channel id. -/
theorem C5_get_paz_first_match :
    ∀ (PAZ : Type) (cid : String) (t : ℚ) (invs : List (PazInv PAZ)),
    (get_paz cid t invs = Except.error ("No PAZ found for channel " ++ cid) ↔
      ∀ inv ∈ invs, tryInventory cid t inv = none) ∧
    (∀ p, get_paz cid t invs = Except.ok p ↔
      ∃ (pre : List (PazInv PAZ)) (inv : PazInv PAZ) (post : List (PazInv PAZ)),
        invs = pre ++ inv :: post ∧
        (∀ j ∈ pre, tryInventory cid t j = none) ∧
        tryInventory cid t inv = some p) ∧
    (∀ (inv : PazInv PAZ) (rest : List (PazInv PAZ)),
      tryInventory cid t inv = none →
      get_paz cid t (inv :: rest) = get_paz cid t rest) ∧
    (∀ (cid2 : String) (sd ed : Option ℚ) (p0 : PAZ),
      tryInventory cid t (PazInv.dict cid2 sd ed p0) = some p0 ↔
        (cid2 = cid ∧ (∀ d ∈ sd, d ≤ t) ∧ (∀ d ∈ ed, t ≤ d))) := by
  intro PAZ cid t invs
  refine ⟨get_paz_error_iff cid t invs, fun p => get_paz_ok_iff cid t invs p,
    ?_, ?_⟩
  · intro inv rest h
    simp [get_paz, h]
  · intro cid2 sd ed p0
    rcases sd with - | d <;> rcases ed with - | e <;>
      simp [tryInventory, optNoneOr]

/-- Witness for C5 at a concrete input: inventory A (wrong channel id) falls
through, inventory B matches and its PAZ is returned; with only A the
lookup fails with the message naming the channel id. -/
theorem C5_witness :
    get_paz "BL.CACB..BHZ" (5 : ℚ)
      [PazInv.dict "XX.YYYY..BHZ" none none (7 : ℕ),
       PazInv.dict "BL.CACB..BHZ" (some 1) (some 9) 42] = Except.ok 42 ∧
    get_paz "BL.CACB..BHZ" (5 : ℚ)
      [PazInv.dict "XX.YYYY..BHZ" none none (7 : ℕ)] =
      Except.error ("No PAZ found for channel " ++ "BL.CACB..BHZ") :=
  ⟨((C5_get_paz_first_match ℕ "BL.CACB..BHZ" 5 _).2.1 42).mpr
      ⟨[PazInv.dict "XX.YYYY..BHZ" none none 7],
       PazInv.dict "BL.CACB..BHZ" (some 1) (some 9) 42, [], rfl,
       by intro j hj; simp only [List.mem_singleton] at hj; subst hj; rfl,
       by rfl⟩,
    (C5_get_paz_first_match ℕ "BL.CACB..BHZ" 5 _).1.mpr
      (by intro inv hinv; simp only [List.mem_singleton] at hinv; subst hinv; rfl)⟩

/-! ## C1: multi-observation coordinate resolution -/

theorem pyListComp2_pairs (pairs : List (ℚ × ℚ)) :
    pyListComp2 (pairs.map (fun p => [p.1, p.2])) = Except.ok pairs := by
  induction pairs with
  | nil => rfl
  | cons p ps ih => simp [pyListComp2, unpack2, ih]

theorem foldl_max_le_iff (l : List ℚ) (a c : ℚ) :
    l.foldl max a ≤ c ↔ a ≤ c ∧ ∀ x ∈ l, x ≤ c := by
  induction l generalizing a with
  | nil => simp
  | cons x xs ih =>
    simp only [List.foldl_cons, ih, max_le_iff, List.mem_cons]
    constructor
    · rintro ⟨⟨h1, h2⟩, h3⟩
      exact ⟨h1, fun y hy => hy.elim (fun e => e ▸ h2) (h3 y)⟩
    · rintro ⟨h1, h2⟩
      exact ⟨⟨h1, h2 x (Or.inl rfl)⟩, fun y hy => h2 y (Or.inr hy)⟩

theorem combinations2_ne_nil {xs : List ℚ} (h : 2 ≤ xs.length) :
    combinations2 xs ≠ [] := by
  rcases xs with _ | ⟨a, _ | ⟨b, t⟩⟩ <;> simp_all [combinations2]

theorem mem_combinations2 {p : ℚ × ℚ} {xs : List ℚ} (h : p ∈ combinations2 xs) :
    p.1 ∈ xs ∧ p.2 ∈ xs := by
  induction xs with
  | nil => simp [combinations2] at h
  | cons a rest ih =>
    simp only [combinations2, List.mem_append, List.mem_map] at h
    rcases h with ⟨b, hb, rfl⟩ | h
    · exact ⟨by simp, by simp [hb]⟩
    · exact ⟨by simp [(ih h).1], by simp [(ih h).2]⟩

theorem mem_combinations2_of_ne {a b : ℚ} {xs : List ℚ} (ha : a ∈ xs)
    (hb : b ∈ xs) (hne : a ≠ b) :
    (a, b) ∈ combinations2 xs ∨ (b, a) ∈ combinations2 xs := by
  induction xs with
  | nil => simp at ha
  | cons x rest ih =>
    rcases List.mem_cons.mp ha with rfl | ha'
    · have hb' : b ∈ rest := by
        rcases List.mem_cons.mp hb with rfl | h
        · exact absurd rfl hne
        · exact h
      left
      simp only [combinations2, List.mem_append, List.mem_map]
      exact Or.inl ⟨b, hb', rfl⟩
    · rcases List.mem_cons.mp hb with rfl | hb'
      · right
        simp only [combinations2, List.mem_append, List.mem_map]
        exact Or.inl ⟨a, ha', rfl⟩
      · rcases ih ha' hb' with h | h
        · left
          simp only [combinations2, List.mem_append]
          exact Or.inr h
        · right
          simp only [combinations2, List.mem_append]
          exact Or.inr h

theorem npMaxAbsDiff_spec (xs : List ℚ) (h2 : 2 ≤ xs.length) (tol : ℚ) :
    ∃ m, npMaxAbsDiff xs = Except.ok m ∧
      (m ≤ tol ↔ ∀ p ∈ combinations2 xs, |p.2 - p.1| ≤ tol) := by
  have hne := combinations2_ne_nil h2
  rcases hd : (combinations2 xs).map (fun p => |p.2 - p.1|) with - | ⟨d, ds⟩
  · exact absurd (List.map_eq_nil_iff.mp hd) hne
  · refine ⟨ds.foldl max d, by simp [npMaxAbsDiff, npArrayMax, hd], ?_⟩
    rw [foldl_max_le_iff]
    have : ∀ y, y ∈ d :: ds ↔ y ∈ (combinations2 xs).map (fun p => |p.2 - p.1|) := by
      rw [hd]
      intro y
      exact Iff.rfl
    constructor
    · rintro ⟨h1, h3⟩ p hp
      have hy : |p.2 - p.1| ∈ d :: ds := by
        rw [this]
        exact List.mem_map_of_mem _ hp
      rcases List.mem_cons.mp hy with he | he
      · exact he ▸ h1
      · exact h3 _ he
    · intro h
      have hall : ∀ y ∈ d :: ds, y ≤ tol := by
        intro y hy
        rw [this] at hy
        obtain ⟨p, hp, rfl⟩ := List.mem_map.mp hy
        exact h p hp
      exact ⟨hall d (by simp), fun y hy => hall y (by simp [hy])⟩

theorem combos_cond_iff (xs : List ℚ) (h2 : 2 ≤ xs.length) (tol : ℚ) :
    (∀ p ∈ combinations2 xs, |p.2 - p.1| ≤ tol) ↔
      ∀ a ∈ xs, ∀ b ∈ xs, |a - b| ≤ tol := by
  constructor
  · intro h a ha b hb
    by_cases hab : a = b
    · subst hab
      obtain ⟨p, hp⟩ := List.exists_mem_of_ne_nil _ (combinations2_ne_nil h2)
      have h0 : (0 : ℚ) ≤ tol := le_trans (abs_nonneg _) (h p hp)
      simpa using h0
    · rcases mem_combinations2_of_ne ha hb hab with hm | hm
      · have hx := h (a, b) hm
        rwa [abs_sub_comm] at hx
      · exact h (b, a) hm
  · intro h p hp
    exact h p.2 (mem_combinations2 hp).2 p.1 (mem_combinations2 hp).1

theorem resolveCoordsSet_pairs (tol : ℚ) (pairs : List (ℚ × ℚ))
    (h2 : 2 ≤ pairs.length) :
    ∃ m1 m2,
      (m1 ≤ tol ↔ ∀ a ∈ pairs.map Prod.fst, ∀ b ∈ pairs.map Prod.fst, |a - b| ≤ tol) ∧
      (m2 ≤ tol ↔ ∀ a ∈ pairs.map Prod.snd, ∀ b ∈ pairs.map Prod.snd, |a - b| ≤ tol) ∧
      resolveCoordsSet tol (pairs.map (fun p => [p.1, p.2])) =
        Except.ok (if m1 ≤ tol ∧ m2 ≤ tol
          then some [npMean (pairs.map Prod.fst), npMean (pairs.map Prod.snd)]
          else none) := by
  have hl1 : 2 ≤ (pairs.map Prod.fst).length := by simpa using h2
  have hl2 : 2 ≤ (pairs.map Prod.snd).length := by simpa using h2
  obtain ⟨m1, hm1, hiff1⟩ := npMaxAbsDiff_spec (pairs.map Prod.fst) hl1 tol
  obtain ⟨m2, hm2, hiff2⟩ := npMaxAbsDiff_spec (pairs.map Prod.snd) hl2 tol
  refine ⟨m1, m2, hiff1.trans (combos_cond_iff _ hl1 tol),
    hiff2.trans (combos_cond_iff _ hl2 tol), ?_⟩
  have hne : (pairs.map (fun p => [p.1, p.2])).isEmpty = false := by
    rcases pairs with - | ⟨p, ps⟩
    · simp at h2
    · simp
  have hlen : ((pairs.map (fun p => [p.1, p.2])).length == 1) = false := by
    simp only [List.length_map, beq_eq_false_iff_ne]
    omega
  rw [resolveCoordsSet]
  rw [hne, hlen]
  simp only [Bool.false_eq_true, if_false]
  rw [pyListComp2_pairs]
  rw [exceptBind_ok]
  rw [hm1, exceptBind_ok, hm2, exceptBind_ok]
  by_cases hc : m1 ≤ tol ∧ m2 ≤ tol
  · rw [if_pos hc, if_pos (by simp [hc.1, hc.2])]
  · rw [if_neg hc]
    rw [if_neg]
    simp only [Bool.and_eq_true, decide_eq_true_eq]
    exact hc

theorem npMean_pair (a b : ℚ) : npMean [a, b] = (a + b) / 2 := by
  simp [npMean]

/-- C1: on an observation set with at least two distinct `(lon, lat)`
observations, the resolution branch of `get_stations` compares the maximum
pairwise absolute difference per axis with the tolerance: if every pairwise
longitude difference and every pairwise latitude difference is within the
tolerance it assigns the arithmetic mean of each axis, otherwise it removes
the station; for two distinct observations within tolerance the assigned
mean differs from both raw observations. -/
theorem C1_multi_coords_resolution :
    (∀ (tol : ℚ) (pairs : List (ℚ × ℚ)), 2 ≤ pairs.length →
      (∀ a ∈ pairs.map Prod.fst, ∀ b ∈ pairs.map Prod.fst, |a - b| ≤ tol) →
      (∀ a ∈ pairs.map Prod.snd, ∀ b ∈ pairs.map Prod.snd, |a - b| ≤ tol) →
      resolveCoordsSet tol (pairs.map (fun p => [p.1, p.2])) =
        Except.ok (some [npMean (pairs.map Prod.fst), npMean (pairs.map Prod.snd)])) ∧
    (∀ (tol : ℚ) (pairs : List (ℚ × ℚ)), 2 ≤ pairs.length →
      ((∃ a ∈ pairs.map Prod.fst, ∃ b ∈ pairs.map Prod.fst, tol < |a - b|) ∨
       (∃ a ∈ pairs.map Prod.snd, ∃ b ∈ pairs.map Prod.snd, tol < |a - b|)) →
      resolveCoordsSet tol (pairs.map (fun p => [p.1, p.2])) = Except.ok none) ∧
    (∀ (tol : ℚ) (p q : ℚ × ℚ), p ≠ q →
      |p.1 - q.1| ≤ tol → |p.2 - q.2| ≤ tol →
      resolveCoordsSet tol [[p.1, p.2], [q.1, q.2]] =
        Except.ok (some [(p.1 + q.1) / 2, (p.2 + q.2) / 2]) ∧
      [(p.1 + q.1) / 2, (p.2 + q.2) / 2] ≠ [p.1, p.2] ∧
      [(p.1 + q.1) / 2, (p.2 + q.2) / 2] ≠ [q.1, q.2]) := by
  have main : ∀ (tol : ℚ) (pairs : List (ℚ × ℚ)), 2 ≤ pairs.length →
      (∀ a ∈ pairs.map Prod.fst, ∀ b ∈ pairs.map Prod.fst, |a - b| ≤ tol) →
      (∀ a ∈ pairs.map Prod.snd, ∀ b ∈ pairs.map Prod.snd, |a - b| ≤ tol) →
      resolveCoordsSet tol (pairs.map (fun p => [p.1, p.2])) =
        Except.ok (some [npMean (pairs.map Prod.fst), npMean (pairs.map Prod.snd)]) := by
    intro tol pairs h2 hlon hlat
    obtain ⟨m1, m2, hi1, hi2, heq⟩ := resolveCoordsSet_pairs tol pairs h2
    rw [heq, if_pos ⟨hi1.mpr hlon, hi2.mpr hlat⟩]
  refine ⟨main, ?_, ?_⟩
  · intro tol pairs h2 hex
    obtain ⟨m1, m2, hi1, hi2, heq⟩ := resolveCoordsSet_pairs tol pairs h2
    rw [heq, if_neg]
    rintro ⟨hc1, hc2⟩
    rcases hex with ⟨a, ha, b, hb, hab⟩ | ⟨a, ha, b, hb, hab⟩
    · exact absurd (hi1.mp hc1 a ha b hb) (not_le.mpr hab)
    · exact absurd (hi2.mp hc2 a ha b hb) (not_le.mpr hab)
  · intro tol p q hpq h1 h2
    have h0 : (0 : ℚ) ≤ tol := le_trans (abs_nonneg _) h1
    have hlon : ∀ a ∈ ([p, q].map Prod.fst), ∀ b ∈ ([p, q].map Prod.fst),
        |a - b| ≤ tol := by
      intro a ha b hb
      simp only [List.map_cons, List.map_nil, List.mem_cons,
        List.not_mem_nil, or_false] at ha hb
      rcases ha with rfl | rfl <;> rcases hb with rfl | rfl
      · simpa using h0
      · exact h1
      · rwa [abs_sub_comm] at h1
      · simpa using h0
    have hlat : ∀ a ∈ ([p, q].map Prod.snd), ∀ b ∈ ([p, q].map Prod.snd),
        |a - b| ≤ tol := by
      intro a ha b hb
      simp only [List.map_cons, List.map_nil, List.mem_cons,
        List.not_mem_nil, or_false] at ha hb
      rcases ha with rfl | rfl <;> rcases hb with rfl | rfl
      · simpa using h0
      · exact h2
      · rwa [abs_sub_comm] at h2
      · simpa using h0
    have heq := main tol [p, q] (by simp) hlon hlat
    have hmap : ([p, q].map (fun r => [r.1, r.2])) = [[p.1, p.2], [q.1, q.2]] := rfl
    rw [hmap] at heq
    have hfst : ([p, q].map Prod.fst) = [p.1, q.1] := rfl
    have hsnd : ([p, q].map Prod.snd) = [p.2, q.2] := rfl
    rw [hfst, hsnd, npMean_pair, npMean_pair] at heq
    refine ⟨heq, ?_, ?_⟩
    · intro hc
      simp only [List.cons.injEq, and_true] at hc
      exact hpq (Prod.ext_iff.mpr ⟨by linarith [hc.1], by linarith [hc.2]⟩)
    · intro hc
      simp only [List.cons.injEq, and_true] at hc
      exact hpq (Prod.ext_iff.mpr ⟨by linarith [hc.1], by linarith [hc.2]⟩)

/-- Witness for C1 at two concrete distinct observations within the default
tolerance `1e-4`: the mean of each axis is assigned and differs from both
raw observations. -/
theorem C1_witness :
    resolveCoordsSet (1/10000) [[(1 : ℚ), 2], [1 + 1/20000, 2]] =
      Except.ok (some [((1 : ℚ) + (1 + 1/20000)) / 2, ((2 : ℚ) + 2) / 2]) ∧
    ([((1 : ℚ) + (1 + 1/20000)) / 2, ((2 : ℚ) + 2) / 2] : List ℚ) ≠ [1, 2] ∧
    ([((1 : ℚ) + (1 + 1/20000)) / 2, ((2 : ℚ) + 2) / 2] : List ℚ) ≠
      [1 + 1/20000, 2] :=
  C1_multi_coords_resolution.2.2 (1/10000) (1, 2) (1 + 1/20000, 2)
    (by norm_num [Prod.ext_iff]) (by norm_num [abs_le]) (by norm_num [abs_le])

/-! ## C2: database precedence -/

/-- C2: when a (non-empty) station database is supplied, its entry for
`"network.name"` entirely replaces the inventory observations: the station's
coordinate becomes the database `(lon, lat, elev)` triple whatever the
dataless/StationXML inventories contain; and when the database lacks the
key, the observation set becomes empty and the station is dropped (no
fallback to the inventory union). -/
theorem C2_database_precedence :
    (∀ (tol : ℚ) (db : StationDB) (dataless : List DatalessInv)
       (xml : List XmlInv) (sta : Station) (e : DBEntry),
      dbFind db (sta.network ++ "." ++ sta.name) = some e →
      resolveStation tol (some db) dataless xml sta =
        Except.ok (some (Station.setCoord sta
          [some e.stlo, some e.stla, some e.stel]))) ∧
    (∀ (tol : ℚ) (db : StationDB) (dataless : List DatalessInv)
       (xml : List XmlInv) (sta : Station),
      db ≠ [] →
      dbFind db (sta.network ++ "." ++ sta.name) = none →
      resolveStation tol (some db) dataless xml sta = Except.ok none) := by
  constructor
  · intro tol db dataless xml sta e hfind
    rcases db with - | ⟨hd0, tl0⟩
    · exact absurd hfind (by simp [dbFind])
    · simp [resolveStation, stationCoordResolution, dbLookupStep, dbTruthy,
        hfind, resolveCoordsSet]
  · intro tol db dataless xml sta hne hfind
    rcases db with - | ⟨hd0, tl0⟩
    · exact absurd rfl hne
    · simp [resolveStation, stationCoordResolution, dbLookupStep, dbTruthy,
        hfind, resolveCoordsSet]

/-- Witness for C2: a database entry for `BL.CACB` overrides differing
dataless and StationXML observations; a database without the key drops the
station. -/
theorem C2_witness :
    resolveStation (1/10000)
      (some [("BL.CACB", ⟨-20, -45, 500⟩)])
      [[⟨"BL.CACB.00.BHZ", 99, 88⟩]] [[⟨"BL", [⟨"CACB", 77, 66⟩]⟩]]
      ⟨"CACB", "BL", "BHZ", "f", "/d", ["20160806"], [none, none]⟩ =
      Except.ok (some ⟨"CACB", "BL", "BHZ", "f", "/d", ["20160806"],
        [some (-45), some (-20), some 500]⟩) ∧
    resolveStation (1/10000)
      (some [("XX.OTHER", ⟨-20, -45, 500⟩)])
      [[⟨"BL.CACB.00.BHZ", 99, 88⟩]] [[⟨"BL", [⟨"CACB", 77, 66⟩]⟩]]
      ⟨"CACB", "BL", "BHZ", "f", "/d", ["20160806"], [none, none]⟩ =
      Except.ok none :=
  ⟨C2_database_precedence.1 (1/10000) _ _ _ _ ⟨-20, -45, 500⟩
      (by with_unfolding_all rfl),
   C2_database_precedence.2 (1/10000) _ _ _ _ (by simp)
      (by with_unfolding_all rfl)⟩

/-! ## C3: inventory-only resolution raises NameError -/

/-- C3: with any falsy `database` (the default `False`, `None`, or an empty
dict) and at least one discovered station, `get_stations` raises an
unhandled `NameError`: `stationinfo` is only bound when a database is
supplied, yet it is indexed inside a handler that catches only `KeyError`,
so the inventory-only path never completes. -/
theorem C3_no_database_name_error :
    ∀ (mseed_dir : String) (files : List FileEntry) (xml : List XmlInv)
      (dataless : List DatalessInv) (database : Option StationDB)
      (networks channels : List String) (startday endday : Option Date)
      (tol : ℚ) (s : Station) (rest : List Station),
    dbTruthy database = false →
    scanStations mseed_dir startday endday networks channels files =
      Except.ok (s :: rest) →
    get_stations mseed_dir files xml dataless database networks channels
      startday endday tol = Except.error PyErr.nameError := by
  intro mseed_dir files xml dataless database networks channels startday endday
    tol s rest hdb hscan
  rw [get_stations, hscan, exceptBind_ok]
  simp [resolvePhase, List.foldlM_cons, resolveStation, stationCoordResolution,
    dbLookupStep, hdb]

/-- Witness for C3: one concrete discovered station, no database. -/
theorem C3_witness :
    get_stations "" [⟨"20160806", "BL.CACB.00.BHZ.D.mseed"⟩] [] [] none [] []
      none none 1 = Except.error PyErr.nameError :=
  C3_no_database_name_error "" _ [] [] none [] [] none none 1
    ⟨"CACB", "BL", "BHZ", "BL.CACB.00.BHZ.*.mseed", "", ["20160806"],
      [none, none]⟩ [] rfl (by with_unfolding_all rfl)

/-! ## C4: grouping of files into stations -/

theorem stationKey_appendSubdir (s : Station) (sd : String) :
    stationKey (Station.appendSubdir s sd) = stationKey s := rfl

theorem subdirs_appendSubdir (s : Station) (sd : String) :
    (Station.appendSubdir s sd).subdirs = s.subdirs ++ [sd] := rfl

theorem map_key_appendSubdirFirst (key : List String) (sd : String)
    (l : List Station) :
    (appendSubdirFirst key sd l).map stationKey = l.map stationKey := by
  induction l with
  | nil => rfl
  | cons s rest ih =>
    by_cases h : stationKey s == key
    · simp [appendSubdirFirst, h, stationKey_appendSubdir]
    · simp only [appendSubdirFirst, h, Bool.false_eq_true, if_false,
        List.map_cons, ih]

theorem mem_appendSubdirFirst_of_ne {s : Station} {l : List Station}
    {key : List String} (sd : String) (hs : s ∈ l)
    (hk : stationKey s ≠ key) : s ∈ appendSubdirFirst key sd l := by
  induction l with
  | nil => simp at hs
  | cons a rest ih =>
    by_cases h : stationKey a == key
    · rcases List.mem_cons.mp hs with rfl | hs'
      · exact absurd (beq_iff_eq.mp h) hk
      · simp [appendSubdirFirst, h, hs']
    · rcases List.mem_cons.mp hs with rfl | hs'
      · simp [appendSubdirFirst, h]
      · simp only [appendSubdirFirst, h, Bool.false_eq_true, if_false]
        exact List.mem_cons_of_mem a (ih hs')

theorem appendSubdir_mem_appendSubdirFirst {s : Station} {l : List Station}
    {key : List String} (sd : String) (hn : (l.map stationKey).Nodup)
    (hs : s ∈ l) (hk : stationKey s = key) :
    Station.appendSubdir s sd ∈ appendSubdirFirst key sd l := by
  induction l with
  | nil => simp at hs
  | cons a rest ih =>
    rcases List.mem_cons.mp hs with rfl | hs'
    · simp [appendSubdirFirst, hk]
    · by_cases h : stationKey a == key
      · -- the head already matches: by Nodup, s cannot also be in the tail
        -- with the same key
        exfalso
        have hmem : stationKey s ∈ rest.map stationKey :=
          List.mem_map_of_mem stationKey hs'
        rw [hk, ← beq_iff_eq.mp h] at hmem
        simp only [List.map_cons, List.nodup_cons] at hn
        exact hn.1 hmem
      · simp only [appendSubdirFirst, h, Bool.false_eq_true, if_false]
        simp only [List.map_cons, List.nodup_cons] at hn
        exact List.mem_cons_of_mem a (ih hn.2 hs')

theorem pfKey_mem_of_any {l : List Station} {pf : ParsedFile}
    (h : l.any (fun s => stationKey s == pfKey pf) = true) :
    pfKey pf ∈ l.map stationKey := by
  obtain ⟨s, hs, he⟩ := List.any_eq_true.mp h
  exact beq_iff_eq.mp he ▸ List.mem_map_of_mem stationKey hs

theorem pfKey_not_mem_of_not_any {l : List Station} {pf : ParsedFile}
    (h : l.any (fun s => stationKey s == pfKey pf) = false) :
    pfKey pf ∉ l.map stationKey := by
  intro hmem
  obtain ⟨s, hs, he⟩ := List.mem_map.mp hmem
  have := List.any_eq_false.mp h s hs
  rw [he] at this
  simp at this

theorem acceptedSubdirs_nil (sd ed : Option Date) (nw ch : List String)
    (key : List String) : acceptedSubdirs sd ed nw ch [] key = [] := rfl

theorem acceptedSubdirs_cons (sd ed : Option Date) (nw ch : List String)
    (fe : FileEntry) (rest : List FileEntry) (key : List String) :
    acceptedSubdirs sd ed nw ch (fe :: rest) key =
      subdirContribution sd ed nw ch fe key ++
        acceptedSubdirs sd ed nw ch rest key := by
  simp [acceptedSubdirs]

theorem scanFold_spec (md : String) (sd ed : Option Date) (nw ch : List String) :
    ∀ (files : List FileEntry) (init res : List Station),
    keysNodup init →
    List.foldlM (scanStep md sd ed nw ch) init files = Except.ok res →
    keysNodup res ∧
    (∀ s ∈ init, ∃ s' ∈ res, stationKey s' = stationKey s ∧
      s'.subdirs = s.subdirs ++ acceptedSubdirs sd ed nw ch files (stationKey s)) ∧
    (∀ s' ∈ res, stationKey s' ∉ init.map stationKey →
      s'.subdirs = acceptedSubdirs sd ed nw ch files (stationKey s')) := by
  intro files
  induction files with
  | nil =>
    intro init res hn hf
    simp only [List.foldlM_nil, exceptPure, Except.ok.injEq] at hf
    subst hf
    refine ⟨hn, ?_, ?_⟩
    · intro s hs
      exact ⟨s, hs, rfl, by simp [acceptedSubdirs_nil]⟩
    · intro s' hs' hnk
      exact absurd (List.mem_map_of_mem stationKey hs') hnk
  | cons fe rest ih =>
    intro init res hn hf
    rw [List.foldlM_cons] at hf
    cases hp : parseAccept sd ed nw ch fe with
    | error e =>
      rw [scanStep, hp, exceptBind_err] at hf
      cases hf
    | ok opf =>
      cases opf with
      | none =>
        rw [scanStep, hp, exceptBind_ok] at hf
        obtain ⟨hn', H2, H3⟩ := ih init res hn hf
        have hcontrib : ∀ key, subdirContribution sd ed nw ch fe key = [] := by
          intro key
          simp [subdirContribution, hp]
        refine ⟨hn', ?_, ?_⟩
        · intro s hs
          obtain ⟨s', hs', hk', hsub'⟩ := H2 s hs
          exact ⟨s', hs', hk', by rw [hsub', acceptedSubdirs_cons, hcontrib]; simp⟩
        · intro s' hs' hnk
          rw [acceptedSubdirs_cons, hcontrib]
          simpa using H3 s' hs' hnk
      | some pf =>
        rw [scanStep, hp, exceptBind_ok] at hf
        have hcontrib : ∀ key, subdirContribution sd ed nw ch fe key =
            if pfKey pf == key then [pf.subdir] else [] := by
          intro key
          simp [subdirContribution, hp]
        by_cases hany : init.any (fun s => stationKey s == pfKey pf) = true
        · -- a station with this key already exists: its subdir list grows
          rw [insertFile, if_pos hany] at hf
          have hkeys : (appendSubdirFirst (pfKey pf) pf.subdir init).map stationKey =
              init.map stationKey := map_key_appendSubdirFirst _ _ _
          have hn1 : keysNodup (appendSubdirFirst (pfKey pf) pf.subdir init) := by
            unfold keysNodup
            rw [hkeys]
            exact hn
          obtain ⟨hn', H2, H3⟩ := ih _ res hn1 hf
          refine ⟨hn', ?_, ?_⟩
          · intro s hs
            by_cases hk : stationKey s = pfKey pf
            · have hmem := appendSubdir_mem_appendSubdirFirst pf.subdir hn hs hk
              obtain ⟨s', hs', hk', hsub'⟩ := H2 _ hmem
              refine ⟨s', hs', by rw [hk', stationKey_appendSubdir], ?_⟩
              rw [hsub', stationKey_appendSubdir, subdirs_appendSubdir,
                acceptedSubdirs_cons, hcontrib]
              rw [if_pos (beq_iff_eq.mpr hk.symm)]
              simp
            · have hmem := mem_appendSubdirFirst_of_ne pf.subdir hs hk
              obtain ⟨s', hs', hk', hsub'⟩ := H2 _ hmem
              refine ⟨s', hs', hk', ?_⟩
              rw [hsub', acceptedSubdirs_cons, hcontrib,
                if_neg (by simpa using fun he => hk he.symm)]
              simp
          · intro s' hs' hnk
            have hnk1 : stationKey s' ∉
                (appendSubdirFirst (pfKey pf) pf.subdir init).map stationKey := by
              rw [hkeys]
              exact hnk
            rw [acceptedSubdirs_cons, hcontrib, if_neg, List.nil_append]
            · exact H3 s' hs' hnk1
            · intro he
              exact hnk (beq_iff_eq.mp he ▸ pfKey_mem_of_any hany)
        · -- no station with this key yet: a fresh one is appended
          have hanyf : init.any (fun s => stationKey s == pfKey pf) = false :=
            Bool.not_eq_true _ ▸ eq_false_of_ne_true hany
          rw [insertFile, if_neg (by rw [hanyf]; simp)] at hf
          have hnotmem : pfKey pf ∉ init.map stationKey :=
            pfKey_not_mem_of_not_any hanyf
          have hnewkey : stationKey (⟨pf.name, pf.network, pf.channel,
              String.intercalate "." [pf.network, pf.name, pf.loc, pf.channel, "*", "mseed"],
              md, [pf.subdir], [none, none]⟩ : Station) = pfKey pf := rfl
          have hn1 : keysNodup (init ++ [⟨pf.name, pf.network, pf.channel,
              String.intercalate "." [pf.network, pf.name, pf.loc, pf.channel, "*", "mseed"],
              md, [pf.subdir], [none, none]⟩]) := by
            unfold keysNodup
            rw [List.map_append]
            simp only [List.map_cons, List.map_nil, hnewkey]
            rw [List.nodup_append]
            exact ⟨hn, List.nodup_singleton _, by simpa [List.disjoint_singleton] using hnotmem⟩
          obtain ⟨hn', H2, H3⟩ := ih _ res hn1 hf
          refine ⟨hn', ?_, ?_⟩
          · intro s hs
            obtain ⟨s', hs', hk', hsub'⟩ := H2 s (by simp [hs])
            refine ⟨s', hs', hk', ?_⟩
            rw [hsub', acceptedSubdirs_cons, hcontrib, if_neg, List.nil_append]
            intro he
            exact hnotmem (beq_iff_eq.mp he ▸ List.mem_map_of_mem stationKey hs)
          · intro s' hs' hnk
            by_cases hks' : stationKey s' = pfKey pf
            · obtain ⟨s'', hs'', hk'', hsub''⟩ := H2 _ (List.mem_append_right init
                (List.mem_singleton.mpr rfl))
              have hseq : s' = s'' := by
                apply List.inj_on_of_nodup_map hn' hs' hs''
                rw [hk'', hnewkey, hks']
              rw [hseq, hsub'', hnewkey, acceptedSubdirs_cons, hcontrib,
                if_pos (beq_iff_eq.mpr (hseq ▸ hks').symm)]
              simp only [List.singleton_append, List.cons_append, List.nil_append]
              rw [hseq] at hks'
              rw [hks']
            · have hnk1 : stationKey s' ∉ (init ++ [(⟨pf.name, pf.network, pf.channel,
                  String.intercalate "." [pf.network, pf.name, pf.loc, pf.channel, "*", "mseed"],
                  md, [pf.subdir], [none, none]⟩ : Station)]).map stationKey := by
                rw [List.map_append]
                simp only [List.mem_append, List.map_cons, List.map_nil,
                  List.mem_singleton, hnewkey]
                rintro (h | h)
                · exact hnk h
                · exact hks' h
              rw [acceptedSubdirs_cons, hcontrib,
                if_neg (by simpa using fun he => hks' he.symm), List.nil_append]
              exact H3 s' hs' hnk1

/-- C4 counterexample: two files with the same `(network, name, channel)`
triple (differing only in location code) in the same date directory produce
a station whose subdir list contains `"20160806"` twice — the claimed
duplicate-freeness fails. -/
theorem C4_counterexample :
    scanStations "" none none [] []
      [⟨"20160806", "BL.CACB.00.BHZ.D.mseed"⟩,
       ⟨"20160806", "BL.CACB.10.BHZ.D.mseed"⟩] =
      Except.ok [⟨"CACB", "BL", "BHZ", "BL.CACB.00.BHZ.*.mseed", "",
        ["20160806", "20160806"], [none, none]⟩] ∧
    ¬ (["20160806", "20160806"] : List String).Nodup :=
  ⟨by with_unfolding_all rfl, by simp⟩

/-- C4 (amended): the first file of a `(network, name, channel)` triple
creates the station with its date sub-directory and every later file of the
same triple appends its date sub-directory unconditionally, so each
station's subdir list is exactly the list of date sub-directories of its
accepted files in scan order (with duplicates when two such files share a
date directory), and no duplicate station is ever created for a triple. -/
theorem C4_subdir_accumulation :
    ∀ (md : String) (sd ed : Option Date) (nw ch : List String)
      (files : List FileEntry) (res : List Station),
    scanStations md sd ed nw ch files = Except.ok res →
    keysNodup res ∧
    ∀ s ∈ res, s.subdirs = acceptedSubdirs sd ed nw ch files (stationKey s) := by
  intro md sd ed nw ch files res hf
  obtain ⟨hn', -, H3⟩ := scanFold_spec md sd ed nw ch files [] res
    (by simp [keysNodup]) hf
  exact ⟨hn', fun s hs => H3 s hs (by simp)⟩

/-- Witness for C4 at a concrete two-file scan over distinct dates. -/
theorem C4_witness :
    keysNodup [⟨"CACB", "BL", "BHZ", "BL.CACB.00.BHZ.*.mseed", "/d",
      ["20160806", "20160807"], [none, none]⟩] ∧
    ∀ s ∈ ([⟨"CACB", "BL", "BHZ", "BL.CACB.00.BHZ.*.mseed", "/d",
        ["20160806", "20160807"], [none, none]⟩] : List Station),
      s.subdirs = acceptedSubdirs none none [] []
        [⟨"20160806", "BL.CACB.00.BHZ.D.mseed"⟩,
         ⟨"20160807", "BL.CACB.00.BHZ.D.mseed"⟩] (stationKey s) :=
  C4_subdir_accumulation "/d" none none [] []
    [⟨"20160806", "BL.CACB.00.BHZ.D.mseed"⟩,
     ⟨"20160807", "BL.CACB.00.BHZ.D.mseed"⟩]
    [⟨"CACB", "BL", "BHZ", "BL.CACB.00.BHZ.*.mseed", "/d",
      ["20160806", "20160807"], [none, none]⟩]
    (by with_unfolding_all rfl)

/-! ## C7: Station ordering -/

theorem pyStrListLt_irrefl (xs : List String) : pyStrListLt xs xs = false := by
  induction xs with
  | nil => rfl
  | cons a as ih => simpa [pyStrListLt] using ih

theorem pyStrListLt_asymm (xs : List String) :
    ∀ ys, pyStrListLt xs ys = true → pyStrListLt ys xs = false := by
  induction xs with
  | nil =>
    intro ys h
    cases ys with
    | nil => simp [pyStrListLt] at h
    | cons b bs => rfl
  | cons a as ih =>
    intro ys h
    cases ys with
    | nil => simp [pyStrListLt] at h
    | cons b bs =>
      by_cases hab : a = b
      · subst hab
        rw [pyStrListLt, if_pos (by simp)] at h
        rw [pyStrListLt, if_pos (by simp)]
        exact ih bs h
      · rw [pyStrListLt, if_neg (by simp [hab])] at h
        rw [pyStrListLt, if_neg (by simp [Ne.symm hab])]
        exact decide_eq_false (lt_asymm (of_decide_eq_true h))

theorem pyStrListLt_connex (xs : List String) :
    ∀ ys, pyStrListLt xs ys = false → pyStrListLt ys xs = false → xs = ys := by
  induction xs with
  | nil =>
    intro ys h1 h2
    cases ys with
    | nil => rfl
    | cons b bs => simp [pyStrListLt] at h1
  | cons a as ih =>
    intro ys h1 h2
    cases ys with
    | nil => simp [pyStrListLt] at h2
    | cons b bs =>
      by_cases hab : a = b
      · subst hab
        rw [pyStrListLt, if_pos (by simp)] at h1
        rw [pyStrListLt, if_pos (by simp)] at h2
        rw [ih bs h1 h2]
      · rw [pyStrListLt, if_neg (by simp [hab])] at h1
        rw [pyStrListLt, if_neg (by simp [Ne.symm hab])] at h2
        have hn1 : ¬(a < b) := of_decide_eq_false h1
        have hn2 : ¬(b < a) := of_decide_eq_false h2
        rcases lt_trichotomy a b with h | h | h
        · exact absurd h hn1
        · exact absurd h hab
        · exact absurd h hn2

theorem pyStrListLt_trans (xs : List String) :
    ∀ ys zs, pyStrListLt xs ys = true → pyStrListLt ys zs = true →
      pyStrListLt xs zs = true := by
  induction xs with
  | nil =>
    intro ys zs h1 h2
    cases zs with
    | nil => cases ys <;> simp [pyStrListLt] at h2
    | cons c cs => rfl
  | cons a as ih =>
    intro ys zs h1 h2
    cases ys with
    | nil => simp [pyStrListLt] at h1
    | cons b bs =>
      cases zs with
      | nil => simp [pyStrListLt] at h2
      | cons c cs =>
        by_cases hab : a = b
        · subst hab
          rw [pyStrListLt, if_pos (by simp)] at h1
          by_cases hbc : a = c
          · subst hbc
            rw [pyStrListLt, if_pos (by simp)] at h2
            rw [pyStrListLt, if_pos (by simp)]
            exact ih bs cs h1 h2
          · rw [pyStrListLt, if_neg (by simp [hbc])] at h2
            rw [pyStrListLt, if_neg (by simp [hbc])]
            exact h2
        · rw [pyStrListLt, if_neg (by simp [hab])] at h1
          have hlt1 : a < b := of_decide_eq_true h1
          by_cases hbc : b = c
          · subst hbc
            rw [pyStrListLt, if_neg (by simp [hab])]
            exact h1
          · rw [pyStrListLt, if_neg (by simp [hbc])] at h2
            have hac : a < c := lt_trans hlt1 (of_decide_eq_true h2)
            rw [pyStrListLt, if_neg (by simp [ne_of_lt hac])]
            exact decide_eq_true hac

theorem station_beq_iff_triple (a b : Station) :
    Station.beq a b = true ↔ Station.boolTriple a = Station.boolTriple b := by
  simp [Station.beq, Station.boolTriple, and_assoc]

theorem station_beq_false_iff (a b : Station) :
    Station.beq a b = false ↔ Station.boolTriple a ≠ Station.boolTriple b := by
  rw [← Bool.not_eq_true, not_iff_not]
  exact station_beq_iff_triple a b

/-- C7: the comparison operators of `Station` form one lexicographic total
order over the same `(name, network, channel)` triple as equality: for every
pair exactly one of `<`, `==`, `>` holds, `>` coincides with the flipped
`<`, `>=` with the flipped `<=`, the derived operators satisfy their
defining equations, and `<` is transitive. -/
theorem C7_station_ordering :
    (∀ a b : Station,
      (Station.lt a b = true ∧ Station.beq a b = false ∧ Station.gt a b = false) ∨
      (Station.lt a b = false ∧ Station.beq a b = true ∧ Station.gt a b = false) ∨
      (Station.lt a b = false ∧ Station.beq a b = false ∧ Station.gt a b = true)) ∧
    (∀ a b : Station, Station.gt a b = Station.lt b a) ∧
    (∀ a b : Station, Station.ge a b = Station.le b a) ∧
    (∀ a b : Station, Station.le a b = (Station.lt a b || Station.beq a b)) ∧
    (∀ a b : Station, Station.gt a b = !Station.le a b) ∧
    (∀ a b : Station, Station.ge a b = !Station.lt a b) ∧
    (∀ a b c : Station, Station.lt a b = true → Station.lt b c = true →
      Station.lt a c = true) := by
  have hlt_not_beq : ∀ a b : Station, Station.lt a b = true →
      Station.beq a b = false := by
    intro a b hlt
    rw [station_beq_false_iff]
    intro he
    rw [Station.lt, he, pyStrListLt_irrefl] at hlt
    cases hlt
  refine ⟨?_, ?_, ?_, fun a b => rfl, fun a b => rfl, fun a b => rfl, ?_⟩
  · intro a b
    cases hlt : Station.lt a b with
    | true =>
      have hbeq := hlt_not_beq a b hlt
      exact Or.inl ⟨rfl, hbeq, by simp [Station.gt, Station.le, hlt]⟩
    | false =>
      cases hbeq : Station.beq a b with
      | true => exact Or.inr (Or.inl ⟨rfl, rfl, by simp [Station.gt, Station.le, hlt, hbeq]⟩)
      | false => exact Or.inr (Or.inr ⟨rfl, rfl, by simp [Station.gt, Station.le, hlt, hbeq]⟩)
  · intro a b
    cases hlt : Station.lt a b with
    | true =>
      have hba : Station.lt b a = false := pyStrListLt_asymm _ _ hlt
      rw [hba]
      simp [Station.gt, Station.le, hlt]
    | false =>
      cases hbeq : Station.beq a b with
      | true =>
        have he := (station_beq_iff_triple a b).mp hbeq
        have hba : Station.lt b a = false := by
          rw [Station.lt, he, pyStrListLt_irrefl]
        rw [hba]
        simp [Station.gt, Station.le, hlt, hbeq]
      | false =>
        have hne := (station_beq_false_iff a b).mp hbeq
        have hba : Station.lt b a = true := by
          cases h : Station.lt b a with
          | true => rfl
          | false => exact absurd (pyStrListLt_connex _ _ hlt h) hne
        rw [hba]
        simp [Station.gt, Station.le, hlt, hbeq]
  · intro a b
    cases hlt : Station.lt a b with
    | true =>
      have hba : Station.lt b a = false := pyStrListLt_asymm _ _ hlt
      have hbeq := hlt_not_beq a b hlt
      have hbeq' : Station.beq b a = false := by
        rw [station_beq_false_iff]
        exact fun he => (station_beq_false_iff a b).mp hbeq he.symm
      simp [Station.ge, Station.le, hlt, hba, hbeq']
    | false =>
      cases hbeq : Station.beq a b with
      | true =>
        have he := (station_beq_iff_triple a b).mp hbeq
        have hbeq' : Station.beq b a = true := (station_beq_iff_triple b a).mpr he.symm
        simp [Station.ge, Station.le, hlt, hbeq']
      | false =>
        have hne := (station_beq_false_iff a b).mp hbeq
        have hba : Station.lt b a = true := by
          cases h : Station.lt b a with
          | true => rfl
          | false => exact absurd (pyStrListLt_connex _ _ hlt h) hne
        simp [Station.ge, Station.le, hlt, hba]
  · intro a b c h1 h2
    exact pyStrListLt_trans _ _ _ h1 h2

/-- Witness for C7: transitivity applied at three concrete stations. -/
theorem C7_witness :
    Station.lt ⟨"AAAA", "BL", "BHZ", "f", "d", [], []⟩
      ⟨"CACB", "BL", "BHZ", "f", "d", [], []⟩ = true ∧
    Station.lt ⟨"CACB", "BL", "BHZ", "f", "d", [], []⟩
      ⟨"NUPB", "BL", "BHZ", "f", "d", [], []⟩ = true ∧
    Station.lt ⟨"AAAA", "BL", "BHZ", "f", "d", [], []⟩
      ⟨"NUPB", "BL", "BHZ", "f", "d", [], []⟩ = true :=
  ⟨by with_unfolding_all rfl, by with_unfolding_all rfl,
   C7_station_ordering.2.2.2.2.2.2
     ⟨"AAAA", "BL", "BHZ", "f", "d", [], []⟩
     ⟨"CACB", "BL", "BHZ", "f", "d", [], []⟩
     ⟨"NUPB", "BL", "BHZ", "f", "d", [], []⟩
     (by with_unfolding_all rfl) (by with_unfolding_all rfl)⟩

/-! ## C8: get_SACPZ_filelists -/

/-- C8 counterexample: a file named by the claimed convention
`<year>.SAC_PZ.<net>.<sta>.<chan>.<loc>` does not match the glob `SAC_PZ*`
(the basename does not start with `SAC_PZ`), so it contributes no dict
entry at all: the scanner returns the empty dict instead of the claimed
`"XJ.AKS.00.BHZ" ↦ path` mapping. -/
theorem C8_counterexample :
    get_SACPZ_filelists "/resp" ["2016.SAC_PZ.XJ.AKS.BHZ.00"] = Except.ok [] := by
  with_unfolding_all rfl

theorem take4_drop2_eq (tk : List String) (h : 6 ≤ tk.length) :
    (tk.drop 2).take 4 =
      [tk.getD 2 "", tk.getD 3 "", tk.getD 4 "", tk.getD 5 ""] := by
  rcases tk with - | ⟨t0, - | ⟨t1, - | ⟨t2, - | ⟨t3, - | ⟨t4, - | ⟨t5, r⟩⟩⟩⟩⟩⟩ <;>
    simp_all [List.getD]

theorem sacpz_fold_eq (dir : String) :
    ∀ (names : List String),
    (∀ n ∈ names, 6 ≤ ((osPathBasename (osPathJoin dir n)).splitOn "_").length) →
    ∀ (acc : List (String × String)),
    ((names.map (fun n => osPathJoin dir n)).foldlM (fun d f => do
        let (net, sta, chn, loc) ←
          unpack4 ((((osPathBasename f).splitOn "_").drop 2).take 4)
        let responseid := String.intercalate "." [net, sta, loc, chn]
        pure (dictUpdate d responseid f)) acc : Except PyErr (List (String × String))) =
      Except.ok (names.foldl (fun d n =>
        let f := osPathJoin dir n
        let tk := (osPathBasename f).splitOn "_"
        dictUpdate d (String.intercalate "."
          [tk.getD 2 "", tk.getD 3 "", tk.getD 5 "", tk.getD 4 ""]) f) acc) := by
  intro names
  induction names with
  | nil => intro h acc; simp
  | cons n ns ih =>
    intro h acc
    have h6 := h n (by simp)
    simp only [List.map_cons, List.foldlM_cons, List.foldl_cons]
    rw [take4_drop2_eq _ h6]
    rw [show unpack4 [((osPathBasename (osPathJoin dir n)).splitOn "_").getD 2 "",
        ((osPathBasename (osPathJoin dir n)).splitOn "_").getD 3 "",
        ((osPathBasename (osPathJoin dir n)).splitOn "_").getD 4 "",
        ((osPathBasename (osPathJoin dir n)).splitOn "_").getD 5 ""] =
      Except.ok (((osPathBasename (osPathJoin dir n)).splitOn "_").getD 2 "",
        ((osPathBasename (osPathJoin dir n)).splitOn "_").getD 3 "",
        ((osPathBasename (osPathJoin dir n)).splitOn "_").getD 4 "",
        ((osPathBasename (osPathJoin dir n)).splitOn "_").getD 5 "") from rfl]
    rw [exceptBind_ok]
    exact ih (fun m hm => h m (by simp [hm])) _

/-- C8 (amended): `get_SACPZ_filelists` keys exactly the files whose basename
starts with `SAC_PZ` (glob `SAC_PZ*`, i.e. the rdseed convention
`SAC_PZs_<net>_<sta>_<chan>_<loc>`), extracting network, station, channel
and location as the underscore-delimited tokens 2–5 of the basename and
mapping the key `network.station.location.channel` to the file path. -/
theorem C8_sacpz_scanner :
    ∀ (dir : String) (listing : List String),
    (∀ n ∈ listing, n.startsWith "SAC_PZ" = true →
      6 ≤ ((osPathBasename (osPathJoin dir n)).splitOn "_").length) →
    get_SACPZ_filelists dir listing = Except.ok (sacpzSpecDict dir listing) := by
  intro dir listing h
  exact sacpz_fold_eq dir (listing.filter (fun n => n.startsWith "SAC_PZ"))
    (fun n hn => h n (List.mem_filter.mp hn).1 (List.mem_filter.mp hn).2) []

/-- Witness for C8 at a concrete directory listing holding one matching and
one non-matching file. -/
theorem C8_witness :
    get_SACPZ_filelists "/resp" ["SAC_PZs_XJ_AKS_BHZ_00", "README"] =
      Except.ok (sacpzSpecDict "/resp" ["SAC_PZs_XJ_AKS_BHZ_00", "README"]) ∧
    sacpzSpecDict "/resp" ["SAC_PZs_XJ_AKS_BHZ_00", "README"] =
      [("XJ.AKS.00.BHZ", "/resp/SAC_PZs_XJ_AKS_BHZ_00")] :=
  ⟨C8_sacpz_scanner "/resp" ["SAC_PZs_XJ_AKS_BHZ_00", "README"]
      (by intro n hn hs
          rcases List.mem_cons.mp hn with rfl | hn'
          · with_unfolding_all rfl
          · simp only [List.mem_singleton] at hn'
            subst hn'
            rw [show ("README".startsWith "SAC_PZ") = false from by
              with_unfolding_all rfl] at hs
            cases hs),
   by with_unfolding_all rfl⟩
